import Mathlib

/-!
Verification of the yaml-schema-validator pipeline.

Shallow embedding of the validator's core: text is `List Char` (Python `str`),
lines are produced by a model of Python `str.splitlines` and rejoined with
`"\n".join`, dictionaries are association lists in insertion order, and the
fallible parts (the external YAML loader, the pydantic `Group` constructor)
are parameters of the embedded functions, so theorems quantify over every
behaviour those externals can have.
-/

namespace YamlVal

/-! ## Python text model: splitlines, join -/

/-- Line-break characters recognised by Python `str.splitlines`. -/
def isLineBreak (c : Char) : Bool :=
  c = '\n' || c = '\r' || c.toNat = 0x0b || c.toNat = 0x0c ||
  c.toNat = 0x1c || c.toNat = 0x1d || c.toNat = 0x1e ||
  c.toNat = 0x85 || c.toNat = 0x2028 || c.toNat = 0x2029

/-- Worker for `splitlines`: `acc` holds the current line reversed, and
`afterCR` records that the break just emitted was a `\r`, so that a directly
following `\n` belongs to the same break. -/
def splitlinesAux : List Char → List Char → Bool → List (List Char)
  | [], acc, _ => if acc.isEmpty then [] else [acc.reverse]
  | c :: rest, acc, afterCR =>
    if afterCR && (c == '\n') then
      splitlinesAux rest acc false
    else if isLineBreak c then
      acc.reverse :: splitlinesAux rest [] (c == '\r')
    else
      splitlinesAux rest (c :: acc) false

/-- Python `str.splitlines`: split at line breaks, breaks not kept, a trailing
break produces no trailing empty line. -/
def splitlines (cs : List Char) : List (List Char) :=
  splitlinesAux cs [] false

/-- Python `"\n".join(lines)`. -/
def joinNL : List (List Char) → List Char
  | [] => []
  | [l] => l
  | l :: l2 :: ls => l ++ '\n' :: joinNL (l2 :: ls)

/-! ## Data model (models/validation_result.py and core/models.py) -/

/-- Severity levels for validation issues. -/
inductive Severity where
  | error
  | warning
  | info
deriving DecidableEq

/-- One validation issue: severity, stable code, message, structural path,
optional 1-based line, optional suggestion. -/
structure ValidationIssue where
  severity : Severity
  code : String
  message : String
  path : List String
  line : Option Nat
  suggestion : Option String
deriving DecidableEq

/-- Factory create_error from the models module. -/
def create_error (code : String) (message : String) (path : List String)
    (line : Option Nat) (suggestion : Option String) : ValidationIssue :=
  ⟨Severity.error, code, message, path, line, suggestion⟩

/-- Factory create_warning from the models module. -/
def create_warning (code : String) (message : String) (path : List String)
    (line : Option Nat) (suggestion : Option String) : ValidationIssue :=
  ⟨Severity.warning, code, message, path, line, suggestion⟩

/-- Complete result of a validation run (timing fields left out: they carry
no validated content). -/
structure ValidationResult where
  success : Bool
  errors : List ValidationIssue
  warnings : List ValidationIssue
deriving DecidableEq

/- Error-code constants of yaml_validator/models/validation_result.py. -/
namespace ErrorCodes

def YAML_PARSE_ERROR : String := "GXVAL001"

def YAML_INDENT_ERROR : String := "GXVAL002"

def YAML_TAB_ERROR : String := "GXVAL003"

def YAML_MAPPING_ERROR : String := "GXVAL004"

def YAML_EMPTY_ERROR : String := "GXVAL005"

def PYDANTIC_VALIDATION_ERROR : String := "GXVAL101"

def STRUCTURE_ERROR : String := "GXVAL104"

end ErrorCodes

/- Error-code constants of src/core/models.py (the older numbering used by
the fixer, the rule engine and the profile rules). -/
namespace SrcCodes

def YAML_INDENT_ERROR : String := "GXVAL002"

def YAML_TAB_ERROR : String := "GXVAL003"

def GROUP_PROMPT_IGNORED_ATTRS : String := "GXVAL102"

def FIELD_REQUIRED_IGNORED : String := "GXVAL106"

def PROFILE_MISSING_REQUIRED_FIELD : String := "GXVAL203"

end SrcCodes

/-! ## Auto-fixer (src/fixer/auto_fixer.py) -/

/-- Python `'\t' in line`. -/
def containsTab (l : List Char) : Bool :=
  l.any (fun c => c == '\t')

/-- Python `line.replace('\t', '  ')`: every tab becomes two spaces. -/
def replaceTabs : List Char → List Char
  | [] => []
  | c :: rest => (if c = '\t' then [' ', ' '] else [c]) ++ replaceTabs rest

/-- One line of `_fix_all_tabs`. -/
def fixTabLine (l : List Char) : List Char :=
  if containsTab l then replaceTabs l else l

/-- Change messages of `_fix_all_tabs`, `n` the 1-based number of the first
line still to scan. -/
def tabChanges : Nat → List (List Char) → List String
  | _, [] => []
  | n, l :: ls =>
    (if containsTab l then ["Line " ++ toString n ++ ": Replaced tabs with spaces"] else [])
      ++ tabChanges (n + 1) ls

/-- AutoFixer._fix_all_tabs: split into lines, replace tabs with two spaces
per line, record one change per modified line, rejoin with newline. -/
def fixAllTabs (t : List Char) : List Char × List String :=
  (joinNL ((splitlines t).map fixTabLine), tabChanges 1 (splitlines t))

/-! ### Indentation normalization (_normalize_indentation) -/

/-- Python default whitespace for `str.strip` and `str.lstrip` (the ASCII
part, the only part YAML documents hold). -/
def isPySpace (c : Char) : Bool :=
  c = ' ' || c = '\t' || c = '\n' || c = '\r' || c.toNat = 0x0b || c.toNat = 0x0c

def startsWithHash : List Char → Bool
  | [] => false
  | c :: _ => c == '#'

/-- Python `round(ind / 2)` for a natural `ind`: exact for even `ind`; an odd
`ind` sits at `.5` and Python rounds half to even. -/
def pyRoundHalfDiv2 (ind : Nat) : Nat :=
  if ind % 2 = 0 then ind / 2
  else if (ind / 2) % 2 = 0 then ind / 2 else ind / 2 + 1

/-- Loop body of `_normalize_indentation` over the lines, `n` the 1-based
number of the first line of the argument; blank and comment-only lines pass
through, leading-space counts that are not multiples of 2 are rounded to the
nearest multiple. -/
def normalizeAux : Nat → List (List Char) → List (List Char) × List String
  | _, [] => ([], [])
  | n, l :: ls =>
    let r := normalizeAux (n + 1) ls
    if l.all isPySpace then (l :: r.1, r.2)
    else if startsWithHash (l.dropWhile isPySpace) then (l :: r.1, r.2)
    else
      let stripped := l.dropWhile (fun c => c == ' ')
      let indent := l.length - stripped.length
      if indent = 0 then (l :: r.1, r.2)
      else if indent % 2 ≠ 0 then
        ((List.replicate (pyRoundHalfDiv2 indent * 2) ' ' ++ stripped) :: r.1,
         ("Line " ++ toString n ++ ": Fixed indentation (" ++ toString indent
            ++ " → " ++ toString (pyRoundHalfDiv2 indent * 2) ++ " spaces)") :: r.2)
      else (l :: r.1, r.2)

/-- AutoFixer._normalize_indentation with the default indent size 2 (its only
call sites use the default). -/
def normalizeIndentation (t : List Char) : List Char × List String :=
  (joinNL (normalizeAux 1 (splitlines t)).1, (normalizeAux 1 (splitlines t)).2)

/-- AutoFixer.fix_all: tab fix, then indentation normalization. -/
def fix_all (t : List Char) : List Char × List String :=
  ((normalizeIndentation (fixAllTabs t).1).1,
   (fixAllTabs t).2 ++ (normalizeIndentation (fixAllTabs t).1).2)

/-! ### Issue-guided fixes (AutoFixer.fix) -/

/-- Python `needle in hay` on strings. -/
def containsSeq (hay needle : List Char) : Bool :=
  hay.tails.any (fun tl => needle.isPrefixOf tl)

/-- AutoFixer._fix_ignored_group_attrs: for a path of at least 3 segments and
an in-range line number, delete the line when it contains the final path
segment followed by a colon (optionally with a space before the colon). -/
def fixIgnoredGroupAttrs (t : List Char) (iss : ValidationIssue) :
    List Char × Option String :=
  if iss.path.length < 3 then (t, none)
  else
    if 0 < iss.line.getD 0 ∧ iss.line.getD 0 ≤ (splitlines t).length then
      if containsSeq ((splitlines t).getD (iss.line.getD 0 - 1) []) ((iss.path.getLastD "").data ++ [':'])
          || containsSeq ((splitlines t).getD (iss.line.getD 0 - 1) []) ((iss.path.getLastD "").data ++ [' ', ':']) then
        (joinNL ((splitlines t).eraseIdx (iss.line.getD 0 - 1)),
         some ("Line " ++ toString (iss.line.getD 0) ++ ": Removed ignored \x27"
            ++ iss.path.getLastD "" ++ "\x27 from group prompt"))
      else (t, none)
    else (t, none)

/-- AutoFixer._fix_required_attr: same shape with the fixed attribute name
`required` and no path-length guard. -/
def fixRequiredAttr (t : List Char) (iss : ValidationIssue) :
    List Char × Option String :=
  if 0 < iss.line.getD 0 ∧ iss.line.getD 0 ≤ (splitlines t).length then
    if containsSeq ((splitlines t).getD (iss.line.getD 0 - 1) []) ("required:".data)
        || containsSeq ((splitlines t).getD (iss.line.getD 0 - 1) []) ("required :".data) then
      (joinNL ((splitlines t).eraseIdx (iss.line.getD 0 - 1)),
       some ("Line " ++ toString (iss.line.getD 0) ++ ": Removed ignored \x27required\x27 attribute"))
    else (t, none)
  else (t, none)

/-- Result of AutoFixer.fix. -/
structure FixResult where
  fixed_yaml : List Char
  changes : List String
  unfixable : List ValidationIssue
deriving DecidableEq

/-- The issue loop of AutoFixer.fix. Tab-coded issues are skipped (handled
up front); an indent-coded issue raises: FIXABLE_CODES names the method
_fix_indentation but the class only defines _normalize_indentation, so
getattr raises AttributeError, which fix does not catch; issues with the two
attribute codes are dispatched, recording a change only when one is made; all
other issues go to the unfixable list. -/
def fixLoop : List Char → List String → List ValidationIssue → List ValidationIssue →
    Except String FixResult
  | t, chgs, unfx, [] => Except.ok ⟨t, chgs, unfx⟩
  | t, chgs, unfx, iss :: rest =>
    if iss.code = SrcCodes.YAML_TAB_ERROR then
      fixLoop t chgs unfx rest
    else if iss.code = SrcCodes.YAML_INDENT_ERROR then
      Except.error "AttributeError: \x27AutoFixer\x27 object has no attribute \x27_fix_indentation\x27"
    else if iss.code = SrcCodes.GROUP_PROMPT_IGNORED_ATTRS then
      fixLoop (fixIgnoredGroupAttrs t iss).1
        (chgs ++ (fixIgnoredGroupAttrs t iss).2.toList) unfx rest
    else if iss.code = SrcCodes.FIELD_REQUIRED_IGNORED then
      fixLoop (fixRequiredAttr t iss).1
        (chgs ++ (fixRequiredAttr t iss).2.toList) unfx rest
    else
      fixLoop t chgs (unfx ++ [iss]) rest

/-- AutoFixer.fix: always fix tabs first, then process the issues in the
order given. -/
def fix (t : List Char) (issues : List ValidationIssue) : Except String FixResult :=
  fixLoop (fixAllTabs t).1 (fixAllTabs t).2 [] issues

/-! ### Fixer claim theorems (C2, C3, C10) -/

/-- Input of the C2 counterexample: a one-line document whose line 1 does not
contain the text pattern of the issue's attribute. -/
def c2Text : List Char := "a: 1".data

/-- A fixable-coded issue (FIELD_REQUIRED_IGNORED) whose recorded line does
not contain the pattern, so no fix applies. -/
def c2Issue : ValidationIssue :=
  ⟨Severity.warning, "GXVAL106", "Field.prompt.required is ignored",
   ["statement", "fields", "m", "prompt", "required"], some 1, none⟩

/-- Witness text for the amended C2: line 3 holds `default: x` and line 4
holds `required: true`. -/
def c2WText : List Char := "g:\n  prompt:\n    default: x\n    required: true".data

/-- Input of the C3 code-bug theorem: ignored `default:` lines at lines 2, 4
and 5. -/
def c3Text : List Char :=
  "g:\n  default: a\n  keep: 1\n  default: b\n  default: c".data

/-- Ignored-attribute issue at line 2. -/
def c3IssueA : ValidationIssue :=
  ⟨Severity.warning, "GXVAL102", "Group.prompt has ignored attributes",
   ["g", "prompt", "default"], some 2, none⟩

/-- Ignored-attribute issue at line 4. -/
def c3IssueB : ValidationIssue :=
  ⟨Severity.warning, "GXVAL102", "Group.prompt has ignored attributes",
   ["g", "prompt", "default"], some 4, none⟩

/-! ## Line lookup (pipeline/syntax_parser.py, get_line_for_path) -/

/-- Python `".".join(path)`. -/
def joinDots (path : List String) : String :=
  String.intercalate "." path

/-- Dictionary lookup in the line map (a dict keyed by dotted path). -/
def lookupStr (m : List (String × Nat)) (k : String) : Option Nat :=
  List.lookup k m

/-- The loop of get_line_for_path: try the dotted prefixes of length
`i, i-1, ..., 1` in that order. -/
def tryParentPaths (m : List (String × Nat)) (path : List String) : Nat → Option Nat
  | 0 => none
  | i + 1 =>
    match lookupStr m (joinDots (path.take (i + 1))) with
    | some v => some v
    | none => tryParentPaths m path i

/-- get_line_for_path: exact dotted-path lookup, then parent prefixes from
the longest proper one down. -/
def get_line_for_path (m : List (String × Nat)) (path : List String) : Option Nat :=
  match lookupStr m (joinDots path) with
  | some v => some v
  | none => tryParentPaths m path (path.length - 1)

/-- Concrete line map for the C4 witness. -/
def c4Map : List (String × Nat) := [("a", 1), ("a.b", 2), ("z", 9)]

/-- Concrete path for the C4 witness. -/
def c4Path : List String := ["a", "b", "c"]

/-! ## Plain data and the typed model (models/schema_definitions.py) -/

/-- A plain Python value as produced by _convert_to_plain_dict: scalars,
lists, and insertion-ordered dicts. -/
inductive Plain where
  | null
  | bool (v : Bool)
  | int (v : Int)
  | str (v : String)
  | list (items : List Plain)
  | dict (entries : List (Plain × Plain))

/-- Python type(x).__name__ for a Plain value. -/
def typeName : Plain → String
  | .null => "NoneType"
  | .bool _ => "bool"
  | .int _ => "int"
  | .str _ => "str"
  | .list _ => "list"
  | .dict _ => "dict"

/-- Python str(x) for a Plain value used as a dict key (lists and dicts are
unhashable and cannot be keys, so their rendering is never consulted). -/
def pyStr : Plain → String
  | .null => "None"
  | .bool true => "True"
  | .bool false => "False"
  | .int v => toString v
  | .str v => v
  | .list _ => ""
  | .dict _ => ""

/-- Union[str, List[str]] for the prompt type attribute. -/
inductive TypeVal where
  | one (v : String)
  | many (vs : List String)

/-- The Prompt pydantic model: all attributes optional. -/
structure Prompt where
  identifiers : Option (List String)
  type : Option TypeVal
  instructions : Option String
  description : Option String
  format : Option String
  attr_name : Option String
  default : Option Plain
  required : Option Bool

/-- The ExtractedField pydantic model. -/
structure ExtractedField where
  prompt : Option Prompt

/-- The Group pydantic model. -/
structure Group where
  prompt : Option Prompt
  fields : Option (List (String × ExtractedField))

/-- The top-level typed model: group name to Group, in insertion order. -/
abbrev YAMLSchema := List (String × Group)

/-! ## Syntax parser (pipeline/syntax_parser.py) -/

/-- The issue _check_for_tabs builds for a tab found on line `n` (1-based) at
column `col` (1-based). -/
def tabIssueAt (n : Nat) (col : Nat) : ValidationIssue :=
  create_error ErrorCodes.YAML_TAB_ERROR
    "Tab character found. Use spaces for indentation." [] (some n)
    (some ("Replace tab at column " ++ toString col ++ " with spaces"))

/-- The line loop of _check_for_tabs, `n` the 1-based number of the first
line of the argument. -/
def checkForTabsAux : Nat → List (List Char) → Option ValidationIssue
  | _, [] => none
  | n, l :: ls =>
    if containsTab l then
      some (tabIssueAt n (l.findIdx (fun c => c == '\t') + 1))
    else checkForTabsAux (n + 1) ls

/-- _check_for_tabs: the issue for the first line containing a tab, none when
the text is tab-free. -/
def checkForTabs (t : List Char) : Option ValidationIssue :=
  checkForTabsAux 1 (splitlines t)

/-- The 1-based number of the first line containing a tab (meaningful when
one exists). -/
def firstTabLine (t : List Char) : Nat :=
  (splitlines t).findIdx containsTab + 1

/-- What the external YAML loader (ruamel yaml.load plus
_extract_yaml_error_info, _build_line_map and _convert_to_plain_dict) can
produce for a given text: a raised YAMLError reduced to its extracted line
and message, a None document, or a parsed document reduced to its plain data
and its path-to-line map. -/
inductive LoadOutcome where
  | failure (line : Option Nat) (message : String)
  | empty
  | success (data : Plain) (lineMap : List (String × Nat))

/-- Outcome of parse_yaml (the ParseResult dataclass, with success, data and
line_map or error). -/
inductive ParseOutcome where
  | parsed (data : Plain) (lineMap : List (String × Nat))
  | failed (err : ValidationIssue)

/-- Python str.lower on the ASCII range. -/
def lowerChars (l : List Char) : List Char :=
  l.map Char.toLower

/-- parse_yaml, parameterized by the external YAML loader: tab pre-check
first; a None document gets the generic parse code with the empty-file
message; a loader error is classified by message substrings; otherwise the
plain data and line map are returned. -/
def parse_yaml (load : List Char → LoadOutcome) (text : List Char) : ParseOutcome :=
  match checkForTabs text with
  | some e => ParseOutcome.failed e
  | none =>
    match load text with
    | LoadOutcome.empty =>
      ParseOutcome.failed (create_error ErrorCodes.YAML_PARSE_ERROR
        "YAML file is empty or contains only comments" [] none
        (some "Add content to the YAML file"))
    | LoadOutcome.failure line msg =>
      ParseOutcome.failed (create_error
        (if containsSeq (lowerChars msg.data) "indent".data then ErrorCodes.YAML_INDENT_ERROR
         else if containsSeq (lowerChars msg.data) "mapping".data then ErrorCodes.YAML_MAPPING_ERROR
         else ErrorCodes.YAML_PARSE_ERROR)
        msg [] line none)
    | LoadOutcome.success data lineMap => ParseOutcome.parsed data lineMap

/-- Input of C10: a well-formed document with a trailing newline, no tabs and
clean indentation. -/
def c10Text : List Char := "a: 1\n".data

/-! ## Schema loader (pipeline/schema_loader.py) -/

/-- One entry of pydantic ValidationError.errors(): error type tag, message,
and location path (segments already stringified). -/
structure PydanticErr where
  etype : String
  msg : String
  loc : List String

/-- The strict pydantic construction Group(**group_data): succeeds with a
typed Group or raises a ValidationError carrying a list of errors. The
embedded loader is parameterized by it, so theorems cover every behaviour
the external library can have. -/
abbrev GroupCtor := List (Plain × Plain) → Except (List PydanticErr) Group

/-- _format_pydantic_error: message re-phrased by error kind, path rooted at
the group name. -/
def formatPydanticError (e : PydanticErr) (groupName : String) : String × List String :=
  (if e.etype = "extra_forbidden" then
     "Unknown field \x27" ++ e.loc.getLastD "unknown" ++ "\x27 is not allowed"
   else if e.etype = "missing" then
     "Required field \x27" ++ e.loc.getLastD "unknown" ++ "\x27 is missing"
   else if e.etype = "string_type" then "Expected a string value"
   else if e.etype = "list_type" then "Expected a list"
   else if e.etype = "dict_type" then "Expected a dictionary"
   else e.msg,
   groupName :: e.loc)

/-- The per-group loop of load_yaml_to_models: non-string keys and
non-mapping values produce STRUCTURE issues, a failed Group construction
produces one PYDANTIC issue per underlying error, successful groups are
collected in order. -/
def loadGroups (ctor : GroupCtor) (lm : List (String × Nat)) :
    List (Plain × Plain) → List (String × Group) × List ValidationIssue
  | [] => ([], [])
  | (k, v) :: rest =>
    match k with
    | .str name =>
      match v with
      | .dict gentries =>
        match ctor gentries with
        | .ok g =>
          ((name, g) :: (loadGroups ctor lm rest).1, (loadGroups ctor lm rest).2)
        | .error pel =>
          ((loadGroups ctor lm rest).1,
           pel.map (fun e =>
             create_error ErrorCodes.PYDANTIC_VALIDATION_ERROR
               (formatPydanticError e name).1
               (formatPydanticError e name).2
               (get_line_for_path lm (formatPydanticError e name).2) none)
             ++ (loadGroups ctor lm rest).2)
      | _ =>
        ((loadGroups ctor lm rest).1,
         create_error ErrorCodes.STRUCTURE_ERROR
           ("Group \x27" ++ name ++ "\x27 must be a dictionary")
           [name] (lookupStr lm name)
           (some ("Define \x27" ++ name ++ "\x27 as a mapping with \x27fields:\x27 and optionally \x27prompt:\x27"))
           :: (loadGroups ctor lm rest).2)
    | _ =>
      ((loadGroups ctor lm rest).1,
       create_error ErrorCodes.STRUCTURE_ERROR
         ("Group name must be a string, got " ++ typeName k)
         [pyStr k] none none
         :: (loadGroups ctor lm rest).2)

/-- load_yaml_to_models: top-level must be a non-empty dict; then load each
group; any collected error voids the model. -/
def load_yaml_to_models (ctor : GroupCtor) (data : Plain) (lm : List (String × Nat)) :
    Option YAMLSchema × List ValidationIssue :=
  match data with
  | .dict entries =>
    if entries.isEmpty then
      (none, [create_error ErrorCodes.STRUCTURE_ERROR "YAML contains no groups" [] none
        (some "Add at least one group, e.g., \x27statement:\x27")])
    else
      if (loadGroups ctor lm entries).2.isEmpty then
        (some (loadGroups ctor lm entries).1, [])
      else
        (none, (loadGroups ctor lm entries).2)
  | _ =>
    (none, [create_error ErrorCodes.STRUCTURE_ERROR
      ("Top-level must be a dictionary, got " ++ typeName data) [] none
      (some "YAML should start with group names like \x27statement:\x27")])

/-! ## Rule engine (rules/base.py) -/

/-- A validation rule: id plus a validate function; an exception inside
validate is an `Except.error` carrying str(e). -/
structure Rule where
  id : String
  validate : YAMLSchema → List (String × Nat) → Except String (List ValidationIssue)

/-- The rule registry: ordered core rules and per-profile ordered rules. -/
structure RuleRegistry where
  core : List Rule
  profile : List (String × List Rule)

/-- RuleRegistry.run_core_rules: run every core rule in order; an exception
is caught and replaced by one synthetic GXVAL000 issue naming the rule id and
the exception text; remaining rules still run. -/
def run_core_rules (reg : RuleRegistry) (model : YAMLSchema)
    (lm : List (String × Nat)) : List ValidationIssue :=
  reg.core.foldl (fun issues r =>
    match r.validate model lm with
    | Except.ok ri => issues ++ ri
    | Except.error e =>
      issues ++ [⟨Severity.error, "GXVAL000", "Rule " ++ r.id ++ " failed: " ++ e,
        [], none, none⟩]) []

/-- RuleRegistry.run_profile_rules: empty for a profile unknown to the
registry, otherwise the same isolated loop with the profile-rule message. -/
def run_profile_rules (reg : RuleRegistry) (profileName : String)
    (model : YAMLSchema) (lm : List (String × Nat)) : List ValidationIssue :=
  match List.lookup profileName reg.profile with
  | none => []
  | some rules =>
    rules.foldl (fun issues r =>
      match r.validate model lm with
      | Except.ok ri => issues ++ ri
      | Except.error e =>
        issues ++ [⟨Severity.error, "GXVAL000", "Profile rule " ++ r.id ++ " failed: " ++ e,
          [], none, none⟩]) []

/-- First good rule of the C5 witness. -/
def c5Good1 : Rule := ⟨"GOOD1", fun _ _ => Except.ok [create_warning "W1" "w1" [] none none]⟩

/-- Throwing rule of the C5 witness. -/
def c5Bad : Rule := ⟨"BAD", fun _ _ => Except.error "boom"⟩

/-- Second good rule of the C5 witness. -/
def c5Good2 : Rule := ⟨"GOOD2", fun _ _ => Except.ok [create_error "E2" "e2" [] none none]⟩

/-- Registry of the C5 witness. -/
def c5Reg : RuleRegistry := ⟨[c5Good1, c5Bad, c5Good2], []⟩

/-! ## Profile rule RequiredFieldsRule (rules/profile_rules/statement_only.py) -/

/-- RequiredFieldsRule.validate: nothing when the group is absent; one error
when the group has no fields; otherwise one error per missing required field
name, in sorted order, line resolved at the group's fields path. The set
difference `required - present` is a list filter deduplicated, and Python
sorted() is an insertion sort under the string order. -/
def requiredFieldsValidate (groupName : String) (requiredFields : List String)
    (model : YAMLSchema) (lm : List (String × Nat)) : List ValidationIssue :=
  match List.lookup groupName model with
  | none => []
  | some g =>
    match g.fields with
    | none =>
      [create_error SrcCodes.PROFILE_MISSING_REQUIRED_FIELD
        ("Group \x27" ++ groupName ++ "\x27 has no fields") [groupName, "fields"] none
        (some "Add \x27fields:\x27 section with required fields")]
    | some fl =>
      (List.insertionSort (fun a b => a ≤ b)
          ((requiredFields.filter (fun f => !((fl.map Prod.fst).contains f))).dedup)).map
        (fun f =>
          create_error SrcCodes.PROFILE_MISSING_REQUIRED_FIELD
            ("Required field \x27" ++ f ++ "\x27 is missing from " ++ groupName ++ ".fields")
            [groupName, "fields", f]
            (get_line_for_path lm [groupName, "fields"])
            (some ("Add \x27" ++ f ++ ":\x27 with prompt containing identifiers and type")))

/-- The final path segment of an issue. -/
def lastSeg (iss : ValidationIssue) : String :=
  iss.path.getLastD ""

/-- Model of the C8 witness: group statement with a fields mapping holding
only meters. -/
def c8Model : YAMLSchema :=
  [("statement", ⟨none, some [("meters", ⟨none⟩)]⟩)]

/-! ## Validation orchestrator (validator.py) -/

/-- Python truthiness of the optional profile argument. -/
def profTruthy : Option String → Bool
  | none => false
  | some p => !p.isEmpty

/-- validate_yaml_schema, parameterized by the external YAML loader, the
pydantic Group constructor, the rule registry (register_core_rules and
register_profile fill it from modules whose rule content the claims leave
abstract) and the profile store lookup. An unknown profile raises
ProfileNotFoundError before anything is parsed. The (none, []) loader branch
is unreachable (load_all_or_nothing). -/
def validate_yaml_schema (load : List Char → LoadOutcome) (ctor : GroupCtor)
    (reg : RuleRegistry) (profileOk : String → Bool)
    (text : List Char) (profile : Option String) (failFast : Bool) :
    Except String ValidationResult :=
  if profTruthy profile && !(profileOk (profile.getD "")) then
    Except.error ("ProfileNotFoundError: " ++ profile.getD "")
  else
    match parse_yaml load text with
    | ParseOutcome.failed err => Except.ok ⟨false, [err], []⟩
    | ParseOutcome.parsed data lm =>
      match load_yaml_to_models ctor data lm with
      | (_, e :: es) => Except.ok ⟨false, e :: es, []⟩
      | (some model, []) =>
        let coreIssues := run_core_rules reg model lm
        let errors := coreIssues.filter (fun i => i.severity == Severity.error)
        let warnings := coreIssues.filter (fun i => !(i.severity == Severity.error))
        if failFast && !errors.isEmpty then
          Except.ok ⟨false, errors, warnings⟩
        else if profTruthy profile then
          let pIssues := run_profile_rules reg (profile.getD "") model lm
          let errors2 := errors ++ pIssues.filter (fun i => i.severity == Severity.error)
          let warnings2 := warnings ++ pIssues.filter (fun i => !(i.severity == Severity.error))
          Except.ok ⟨errors2.isEmpty, errors2, warnings2⟩
        else
          Except.ok ⟨errors.isEmpty, errors, warnings⟩
      | (none, []) => Except.ok ⟨false, [], []⟩

/-- Witness text for C6: the tab sits on line 2. -/
def c6Text : List Char := "a:\n\tb: 1".data

/-! ## Theorems -/

/-- Every character of a line produced by `splitlinesAux` comes from the
input or from the accumulator. -/
theorem splitlinesAux_chars (cs : List Char) (acc : List Char) (b : Bool) :
    ∀ l ∈ splitlinesAux cs acc b, ∀ c ∈ l, c ∈ cs ∨ c ∈ acc := by
  induction cs generalizing acc b with
  | nil =>
    intro l hl c hc
    simp only [splitlinesAux] at hl
    split at hl
    · simp at hl
    · simp at hl
      subst hl
      exact Or.inr (List.mem_reverse.mp hc)
  | cons d rest ih =>
    intro l hl c hc
    simp only [splitlinesAux] at hl
    split at hl
    · rcases ih acc false l hl c hc with h | h
      · exact Or.inl (List.mem_cons_of_mem _ h)
      · exact Or.inr h
    · split at hl
      · rcases List.mem_cons.mp hl with h | h
        · subst h
          exact Or.inr (List.mem_reverse.mp hc)
        · rcases ih [] (d == '\r') l h c hc with h2 | h2
          · exact Or.inl (List.mem_cons_of_mem _ h2)
          · simp at h2
      · rcases ih (d :: acc) false l hl c hc with h | h
        · exact Or.inl (List.mem_cons_of_mem _ h)
        · rcases List.mem_cons.mp h with h2 | h2
          · subst h2
            exact Or.inl (List.mem_cons_self _ _)
          · exact Or.inr h2

/-- A non-break character of the input lands in some produced line. -/
theorem splitlinesAux_covers (cs : List Char) (acc : List Char) (b : Bool) (c : Char)
    (hc : isLineBreak c = false) (hmem : c ∈ cs ∨ c ∈ acc) :
    ∃ l ∈ splitlinesAux cs acc b, c ∈ l := by
  induction cs generalizing acc b with
  | nil =>
    rcases hmem with h | h
    · simp at h
    · refine ⟨acc.reverse, ?_, List.mem_reverse.mpr h⟩
      simp only [splitlinesAux]
      have : acc.isEmpty = false := by
        cases acc with
        | nil => simp at h
        | cons a l => rfl
      rw [this]
      simp
  | cons d rest ih =>
    simp only [splitlinesAux]
    split
    case isTrue hsw =>
      have hd : d = '\n' := by
        rcases Bool.and_eq_true_iff.mp hsw with ⟨_, h2⟩
        exact beq_iff_eq.mp h2
      rcases hmem with h | h
      · rcases List.mem_cons.mp h with h2 | h2
        · subst h2
          rw [hd] at hc
          simp [isLineBreak] at hc
        · exact ih acc false (Or.inl h2)
      · exact ih acc false (Or.inr h)
    case isFalse =>
      split
      case isTrue hbr =>
        rcases hmem with h | h
        · rcases List.mem_cons.mp h with h2 | h2
          · subst h2
            rw [hbr] at hc
            simp at hc
          · rcases ih [] (d == '\r') (Or.inl h2) with ⟨l, hl, hcl⟩
            exact ⟨l, List.mem_cons_of_mem _ hl, hcl⟩
        · exact ⟨acc.reverse, List.mem_cons_self _ _, List.mem_reverse.mpr h⟩
      case isFalse hbr =>
        rcases hmem with h | h
        · rcases List.mem_cons.mp h with h2 | h2
          · subst h2
            exact ih (c :: acc) false (Or.inr (List.mem_cons_self _ _))
          · exact ih (d :: acc) false (Or.inl h2)
        · exact ih (d :: acc) false (Or.inr (List.mem_cons_of_mem _ h))

/-- A character of the joined text is the separator or comes from a line. -/
theorem mem_joinNL (ls : List (List Char)) (c : Char) (h : c ∈ joinNL ls) :
    c = '\n' ∨ ∃ l ∈ ls, c ∈ l := by
  induction ls with
  | nil => simp [joinNL] at h
  | cons l rest ih =>
    cases rest with
    | nil =>
      simp [joinNL] at h
      exact Or.inr ⟨l, by simp, h⟩
    | cons l2 ls2 =>
      rw [joinNL] at h
      rcases List.mem_append.mp h with h2 | h2
      · exact Or.inr ⟨l, List.mem_cons_self _ _, h2⟩
      · rcases List.mem_cons.mp h2 with h3 | h3
        · exact Or.inl h3
        · rcases ih h3 with h4 | ⟨l3, hl3, hcl3⟩
          · exact Or.inl h4
          · exact Or.inr ⟨l3, List.mem_cons_of_mem _ hl3, hcl3⟩

/-! ### Tab-fixer facts (claims C9, C10) -/

theorem replaceTabs_no_tab (l : List Char) : containsTab (replaceTabs l) = false := by
  induction l with
  | nil => rfl
  | cons c rest ih =>
    rw [replaceTabs]
    by_cases h : c = '\t'
    · simp only [if_pos h, containsTab, List.any_append] at *
      simp [ih]
    · simp only [if_neg h, containsTab, List.any_append] at *
      simp [ih, h]

theorem fixTabLine_no_tab (l : List Char) : containsTab (fixTabLine l) = false := by
  unfold fixTabLine
  by_cases h : containsTab l = true
  · rw [if_pos h]
    exact replaceTabs_no_tab l
  · rw [if_neg h]
    exact Bool.eq_false_iff.mpr h

theorem containsTab_iff (l : List Char) : containsTab l = true ↔ '\t' ∈ l := by
  unfold containsTab
  rw [List.any_eq_true]
  constructor
  · rintro ⟨c, hc, he⟩
    rw [beq_iff_eq] at he
    exact he ▸ hc
  · intro h
    exact ⟨'\t', h, beq_iff_eq.mpr rfl⟩

/-- The text produced by the tab fixer holds no tab. -/
theorem fixAllTabs_no_tab (t : List Char) : '\t' ∉ (fixAllTabs t).1 := by
  intro hmem
  rcases mem_joinNL _ _ hmem with h | ⟨l, hl, hcl⟩
  · exact absurd h (by decide)
  · rcases List.mem_map.mp hl with ⟨l0, _, hfix⟩
    have := fixTabLine_no_tab l0
    rw [hfix] at this
    exact absurd ((containsTab_iff l).mpr hcl) (Bool.eq_false_iff.mp this)

theorem tabChanges_nil (ls : List (List Char)) (n : Nat)
    (h : ∀ l ∈ ls, containsTab l = false) : tabChanges n ls = [] := by
  induction ls generalizing n with
  | nil => rfl
  | cons l rest ih =>
    rw [tabChanges]
    rw [h l (List.mem_cons_self _ _)]
    simpa using ih (n + 1) (fun x hx => h x (List.mem_cons_of_mem _ hx))

/-- C9: the tab fixer is idempotent in its change reporting — run on its own
output, `_fix_all_tabs` records no change. -/
theorem tab_fixer_idempotent (t : List Char) :
    (fixAllTabs (fixAllTabs t).1).2 = [] := by
  apply tabChanges_nil
  intro l hl
  rw [Bool.eq_false_iff]
  intro hcon
  rcases (containsTab_iff l).mp hcon with hmem
  rcases splitlinesAux_chars _ [] false l hl '\t' hmem with h | h
  · exact fixAllTabs_no_tab t h
  · simp at h

/-- On tab-free text whose line split and rejoin is the identity, the tab
fixer changes nothing and records nothing. -/
theorem fixAllTabs_of_no_tab (t : List Char) (hnt : containsTab t = false)
    (hjn : joinNL (splitlines t) = t) : fixAllTabs t = (t, []) := by
  have hlines : ∀ l ∈ splitlines t, containsTab l = false := by
    intro l hl
    rw [Bool.eq_false_iff]
    intro hcon
    have hmem := (containsTab_iff l).mp hcon
    rcases splitlinesAux_chars t [] false l hl '\t' hmem with h | h
    · exact absurd ((containsTab_iff t).mpr h) (Bool.eq_false_iff.mp hnt)
    · simp at h
  unfold fixAllTabs
  have hmap : (splitlines t).map fixTabLine = splitlines t := by
    rw [List.map_congr_left (g := fun l => l) ?_]
    · exact List.map_id' _
    · intro l hl
      unfold fixTabLine
      rw [hlines l hl]
      simp
  rw [hmap, hjn, tabChanges_nil _ _ hlines]

/-- C2 counterexample: when the recorded line does not contain the attribute
pattern, the document is unchanged, but the issue is NOT placed in the
returned unfixable list (the claim requires it there): unfixable comes back
empty, not `[c2Issue]`. -/
theorem fixable_issue_not_reported_unfixable :
    fix c2Text [c2Issue] = Except.ok ⟨c2Text, [], []⟩
    ∧ ([] : List ValidationIssue) ≠ [c2Issue] := by
  exact ⟨rfl, by decide⟩

/-- C2 amended, both fixable ignored-attribute codes, stated on tab-free
text whose line split and rejoin is the identity (so the always-run tab step
is inert). For GROUP_PROMPT_IGNORED_ATTRS (path of at least 3 segments, the
attribute being the final path segment) with an in-range recorded line: if
that line contains the attribute pattern, fix deletes the line and records
the removal, otherwise the document comes back unchanged with no change
recorded. For FIELD_REQUIRED_IGNORED the same holds with the literal
attribute name required. In every case the issue never reaches the unfixable
list, which collects only issues whose codes are not fixable. -/
theorem fixer_ignored_attr_amended (t : List Char)
    (hnt : containsTab t = false)
    (hjn : joinNL (splitlines t) = t) :
    (∀ iss : ValidationIssue, ∀ n : Nat,
      iss.code = SrcCodes.GROUP_PROMPT_IGNORED_ATTRS →
      3 ≤ iss.path.length →
      iss.line = some n → 0 < n → n ≤ (splitlines t).length →
      (((containsSeq ((splitlines t).getD (n - 1) []) ((iss.path.getLastD "").data ++ [':'])
          || containsSeq ((splitlines t).getD (n - 1) []) ((iss.path.getLastD "").data ++ [' ', ':'])) = true →
        fix t [iss] = Except.ok
          ⟨joinNL ((splitlines t).eraseIdx (n - 1)),
           ["Line " ++ toString n ++ ": Removed ignored \x27"
              ++ iss.path.getLastD "" ++ "\x27 from group prompt"], []⟩)
      ∧ ((containsSeq ((splitlines t).getD (n - 1) []) ((iss.path.getLastD "").data ++ [':'])
          || containsSeq ((splitlines t).getD (n - 1) []) ((iss.path.getLastD "").data ++ [' ', ':'])) = false →
        fix t [iss] = Except.ok ⟨t, [], []⟩)))
    ∧ (∀ iss : ValidationIssue, ∀ n : Nat,
      iss.code = SrcCodes.FIELD_REQUIRED_IGNORED →
      iss.line = some n → 0 < n → n ≤ (splitlines t).length →
      (((containsSeq ((splitlines t).getD (n - 1) []) ("required:".data)
          || containsSeq ((splitlines t).getD (n - 1) []) ("required :".data)) = true →
        fix t [iss] = Except.ok
          ⟨joinNL ((splitlines t).eraseIdx (n - 1)),
           ["Line " ++ toString n ++ ": Removed ignored \x27required\x27 attribute"], []⟩)
      ∧ ((containsSeq ((splitlines t).getD (n - 1) []) ("required:".data)
          || containsSeq ((splitlines t).getD (n - 1) []) ("required :".data)) = false →
        fix t [iss] = Except.ok ⟨t, [], []⟩))) := by
  have hfa : fixAllTabs t = (t, []) := fixAllTabs_of_no_tab t hnt hjn
  constructor
  · intro iss n hcode hpath hline hn hle
    have h1 : ¬ (iss.code = SrcCodes.YAML_TAB_ERROR) := by rw [hcode]; decide
    have h2 : ¬ (iss.code = SrcCodes.YAML_INDENT_ERROR) := by rw [hcode]; decide
    have hfix : fix t [iss]
        = Except.ok ⟨(fixIgnoredGroupAttrs t iss).1, (fixIgnoredGroupAttrs t iss).2.toList, []⟩ := by
      unfold fix
      rw [hfa]
      simp only [fixLoop]
      rw [if_neg h1, if_neg h2, if_pos hcode]
      simp only [fixLoop, List.nil_append]
    have hguard : ¬ iss.path.length < 3 := by omega
    constructor
    · intro hhit
      have heq : fixIgnoredGroupAttrs t iss
          = (joinNL ((splitlines t).eraseIdx (n - 1)),
             some ("Line " ++ toString n ++ ": Removed ignored \x27"
                ++ iss.path.getLastD "" ++ "\x27 from group prompt")) := by
        unfold fixIgnoredGroupAttrs
        rw [if_neg hguard]
        simp only [hline, Option.getD_some]
        rw [if_pos ⟨hn, hle⟩, if_pos hhit]
      rw [hfix, heq]
      rfl
    · intro hmiss
      have heq : fixIgnoredGroupAttrs t iss = (t, none) := by
        unfold fixIgnoredGroupAttrs
        rw [if_neg hguard]
        simp only [hline, Option.getD_some]
        rw [if_pos ⟨hn, hle⟩, if_neg (by rw [hmiss]; exact Bool.false_ne_true)]
      rw [hfix, heq]
      rfl
  · intro iss n hcode hline hn hle
    have h1 : ¬ (iss.code = SrcCodes.YAML_TAB_ERROR) := by rw [hcode]; decide
    have h2 : ¬ (iss.code = SrcCodes.YAML_INDENT_ERROR) := by rw [hcode]; decide
    have h3 : ¬ (iss.code = SrcCodes.GROUP_PROMPT_IGNORED_ATTRS) := by rw [hcode]; decide
    have hfix : fix t [iss]
        = Except.ok ⟨(fixRequiredAttr t iss).1, (fixRequiredAttr t iss).2.toList, []⟩ := by
      unfold fix
      rw [hfa]
      simp only [fixLoop]
      rw [if_neg h1, if_neg h2, if_neg h3, if_pos hcode]
      simp only [fixLoop, List.nil_append]
    constructor
    · intro hhit
      have heq : fixRequiredAttr t iss
          = (joinNL ((splitlines t).eraseIdx (n - 1)),
             some ("Line " ++ toString n ++ ": Removed ignored \x27required\x27 attribute")) := by
        unfold fixRequiredAttr
        simp only [hline, Option.getD_some]
        rw [if_pos ⟨hn, hle⟩, if_pos hhit]
      rw [hfix, heq]
      rfl
    · intro hmiss
      have heq : fixRequiredAttr t iss = (t, none) := by
        unfold fixRequiredAttr
        simp only [hline, Option.getD_some]
        rw [if_pos ⟨hn, hle⟩, if_neg (by rw [hmiss]; exact Bool.false_ne_true)]
      rw [hfix, heq]
      rfl

/-- Witness for the amended C2 at a concrete text holding both an ignored
group attribute line and a required line: the hypotheses hold and the
conclusion follows by the theorem. -/
theorem fixer_ignored_attr_amended_witness :
    containsTab c2WText = false
    ∧ joinNL (splitlines c2WText) = c2WText
    ∧ ((∀ iss : ValidationIssue, ∀ n : Nat,
      iss.code = SrcCodes.GROUP_PROMPT_IGNORED_ATTRS →
      3 ≤ iss.path.length →
      iss.line = some n → 0 < n → n ≤ (splitlines c2WText).length →
      (((containsSeq ((splitlines c2WText).getD (n - 1) []) ((iss.path.getLastD "").data ++ [':'])
          || containsSeq ((splitlines c2WText).getD (n - 1) []) ((iss.path.getLastD "").data ++ [' ', ':'])) = true →
        fix c2WText [iss] = Except.ok
          ⟨joinNL ((splitlines c2WText).eraseIdx (n - 1)),
           ["Line " ++ toString n ++ ": Removed ignored \x27"
              ++ iss.path.getLastD "" ++ "\x27 from group prompt"], []⟩)
      ∧ ((containsSeq ((splitlines c2WText).getD (n - 1) []) ((iss.path.getLastD "").data ++ [':'])
          || containsSeq ((splitlines c2WText).getD (n - 1) []) ((iss.path.getLastD "").data ++ [' ', ':'])) = false →
        fix c2WText [iss] = Except.ok ⟨c2WText, [], []⟩)))
    ∧ (∀ iss : ValidationIssue, ∀ n : Nat,
      iss.code = SrcCodes.FIELD_REQUIRED_IGNORED →
      iss.line = some n → 0 < n → n ≤ (splitlines c2WText).length →
      (((containsSeq ((splitlines c2WText).getD (n - 1) []) ("required:".data)
          || containsSeq ((splitlines c2WText).getD (n - 1) []) ("required :".data)) = true →
        fix c2WText [iss] = Except.ok
          ⟨joinNL ((splitlines c2WText).eraseIdx (n - 1)),
           ["Line " ++ toString n ++ ": Removed ignored \x27required\x27 attribute"], []⟩)
      ∧ ((containsSeq ((splitlines c2WText).getD (n - 1) []) ("required:".data)
          || containsSeq ((splitlines c2WText).getD (n - 1) []) ("required :".data)) = false →
        fix c2WText [iss] = Except.ok ⟨c2WText, [], []⟩)))) :=
  ⟨by decide, by decide,
   fixer_ignored_attr_amended c2WText (by decide) (by decide)⟩

/-- C3: fix applies deletions in issue order, not highest line first. After
the line-2 deletion shifts the text, the line-4 issue deletes what was
originally line 5 (`default: c`): the line the issue referred to
(`default: b`, originally line 4) is still present in the output, so the
deleted line is not the line the issue referred to. Deleting from the highest
line number to the lowest would instead keep `default: c` and remove
`default: b`. -/
theorem fix_deletes_wrong_line_on_ascending_issues :
    fix c3Text [c3IssueA, c3IssueB]
      = Except.ok ⟨"g:\n  keep: 1\n  default: b".data,
          ["Line 2: Removed ignored \x27default\x27 from group prompt",
           "Line 4: Removed ignored \x27default\x27 from group prompt"], []⟩
    ∧ ("g:\n  keep: 1\n  default: b".data : List Char)
        ≠ "g:\n  keep: 1\n  default: c".data := by
  exact ⟨rfl, by decide⟩

theorem tryParentPaths_some (m : List (String × Nat)) (path : List String) :
    ∀ k v, tryParentPaths m path k = some v →
      ∃ i, 0 < i ∧ i ≤ k ∧ lookupStr m (joinDots (path.take i)) = some v := by
  intro k
  induction k with
  | zero =>
    intro v h
    simp [tryParentPaths] at h
  | succ k ih =>
    intro v h
    rw [tryParentPaths] at h
    rcases hcase : lookupStr m (joinDots (path.take (k + 1))) with _ | w
    · rw [hcase] at h
      rcases ih v h with ⟨i, hi0, hik, hv⟩
      exact ⟨i, hi0, Nat.le_succ_of_le hik, hv⟩
    · rw [hcase] at h
      cases h
      exact ⟨k + 1, Nat.succ_pos _, Nat.le_refl _, hcase⟩

theorem tryParentPaths_none (m : List (String × Nat)) (path : List String) :
    ∀ k, (∀ i, 0 < i → i ≤ k → lookupStr m (joinDots (path.take i)) = none) →
      tryParentPaths m path k = none := by
  intro k
  induction k with
  | zero => intro _; rfl
  | succ k ih =>
    intro h
    rw [tryParentPaths, h (k + 1) (Nat.succ_pos _) (Nat.le_refl _)]
    exact ih (fun i hi0 hik => h i hi0 (Nat.le_succ_of_le hik))

theorem tryParentPaths_hit (m : List (String × Nat)) (path : List String) :
    ∀ k i v, 0 < i → i ≤ k → lookupStr m (joinDots (path.take i)) = some v →
      (∀ j, i < j → j ≤ k → lookupStr m (joinDots (path.take j)) = none) →
      tryParentPaths m path k = some v := by
  intro k
  induction k with
  | zero =>
    intro i v hi0 hik _ _
    omega
  | succ k ih =>
    intro i v hi0 hik hhit hnone
    rw [tryParentPaths]
    by_cases hieq : i = k + 1
    · subst hieq
      rw [hhit]
    · have hik2 : i ≤ k := by omega
      rw [hnone (k + 1) (by omega) (Nat.le_refl _)]
      exact ih i v hi0 hik2 hhit
        (fun j hij hjk => hnone j hij (Nat.le_succ_of_le hjk))

/-- C4: get_line_for_path returns the line recorded for the exact dotted
path when present; otherwise the line of the longest proper prefix present;
none when no prefix is in the map; and any returned line is recorded for a
dotted prefix of the queried path — never for an unrelated path. -/
theorem get_line_for_path_spec (m : List (String × Nat)) (path : List String)
    (hne : path ≠ []) :
    (∀ v, lookupStr m (joinDots path) = some v → get_line_for_path m path = some v)
    ∧ (lookupStr m (joinDots path) = none →
        ∀ i v, 0 < i → i < path.length →
          lookupStr m (joinDots (path.take i)) = some v →
          (∀ j, i < j → j < path.length → lookupStr m (joinDots (path.take j)) = none) →
          get_line_for_path m path = some v)
    ∧ ((∀ i, 0 < i → i ≤ path.length → lookupStr m (joinDots (path.take i)) = none) →
        get_line_for_path m path = none)
    ∧ (∀ v, get_line_for_path m path = some v →
        ∃ i, 0 < i ∧ i ≤ path.length ∧ lookupStr m (joinDots (path.take i)) = some v) := by
  have hlen : 0 < path.length := List.length_pos.mpr hne
  refine ⟨?_, ?_, ?_, ?_⟩
  · intro v h
    unfold get_line_for_path
    rw [h]
  · intro hmiss i v hi0 hilt hhit hnone
    unfold get_line_for_path
    rw [hmiss]
    exact tryParentPaths_hit m path (path.length - 1) i v hi0 (by omega) hhit
      (fun j hij hjk => hnone j hij (by omega))
  · intro hall
    unfold get_line_for_path
    have hmiss : lookupStr m (joinDots path) = none := by
      have := hall path.length hlen (Nat.le_refl _)
      rwa [List.take_length] at this
    rw [hmiss]
    exact tryParentPaths_none m path (path.length - 1)
      (fun i hi0 hik => hall i hi0 (by omega))
  · intro v h
    unfold get_line_for_path at h
    rcases hcase : lookupStr m (joinDots path) with _ | w
    · rw [hcase] at h
      rcases tryParentPaths_some m path (path.length - 1) v h with ⟨i, hi0, hik, hv⟩
      exact ⟨i, hi0, by omega, hv⟩
    · rw [hcase] at h
      cases h
      exact ⟨path.length, hlen, Nat.le_refl _, by rwa [List.take_length]⟩

/-- Witness for C4 at a concrete map and path. -/
theorem get_line_for_path_spec_witness :
    c4Path ≠ []
    ∧ ((∀ v, lookupStr c4Map (joinDots c4Path) = some v → get_line_for_path c4Map c4Path = some v)
    ∧ (lookupStr c4Map (joinDots c4Path) = none →
        ∀ i v, 0 < i → i < c4Path.length →
          lookupStr c4Map (joinDots (c4Path.take i)) = some v →
          (∀ j, i < j → j < c4Path.length → lookupStr c4Map (joinDots (c4Path.take j)) = none) →
          get_line_for_path c4Map c4Path = some v)
    ∧ ((∀ i, 0 < i → i ≤ c4Path.length → lookupStr c4Map (joinDots (c4Path.take i)) = none) →
        get_line_for_path c4Map c4Path = none)
    ∧ (∀ v, get_line_for_path c4Map c4Path = some v →
        ∃ i, 0 < i ∧ i ≤ c4Path.length ∧ lookupStr c4Map (joinDots (c4Path.take i)) = some v)) :=
  ⟨by decide, get_line_for_path_spec c4Map c4Path (by decide)⟩

/-- C1: on a document the YAML loader decodes to nothing, parse_yaml fails
with the generic parse code GXVAL001 — not with YAML_EMPTY_ERROR (GXVAL005),
the code the models module defines and documents for exactly this case and
never uses. -/
theorem empty_document_gets_generic_parse_code :
    parse_yaml (fun _ => LoadOutcome.empty) [] =
      ParseOutcome.failed (create_error ErrorCodes.YAML_PARSE_ERROR
        "YAML file is empty or contains only comments" [] none
        (some "Add content to the YAML file"))
    ∧ ErrorCodes.YAML_PARSE_ERROR ≠ ErrorCodes.YAML_EMPTY_ERROR :=
  ⟨rfl, by decide⟩

theorem checkForTabsAux_line (lines : List (List Char)) :
    ∀ n, lines.any containsTab = true →
      ∃ col, checkForTabsAux n lines
        = some (tabIssueAt (n + lines.findIdx containsTab) col) := by
  induction lines with
  | nil =>
    intro n h
    simp at h
  | cons l ls ih =>
    intro n h
    by_cases hl : containsTab l = true
    · refine ⟨l.findIdx (fun c => c == '\t') + 1, ?_⟩
      rw [checkForTabsAux, if_pos hl, List.findIdx_cons, hl]
      simp
    · have hls : ls.any containsTab = true := by
        rcases List.any_eq_true.mp h with ⟨x, hx, hpx⟩
        rcases List.mem_cons.mp hx with h2 | h2
        · exact absurd (h2 ▸ hpx) hl
        · exact List.any_eq_true.mpr ⟨x, h2, hpx⟩
      rcases ih (n + 1) hls with ⟨col, hc⟩
      refine ⟨col, ?_⟩
      rw [checkForTabsAux, if_neg hl, hc, List.findIdx_cons]
      rw [Bool.eq_false_iff.mpr hl]
      have : n + 1 + List.findIdx containsTab ls
          = n + (List.findIdx containsTab ls + 1) := by omega
      rw [cond_false, this]

/-- A text with a tab has a line with a tab. -/
theorem splitlines_any_tab (t : List Char) (h : containsTab t = true) :
    (splitlines t).any containsTab = true := by
  rcases splitlinesAux_covers t [] false '\t' (by decide)
      (Or.inl ((containsTab_iff t).mp h)) with ⟨l, hl, hcl⟩
  exact List.any_eq_true.mpr ⟨l, hl, (containsTab_iff l).mpr hcl⟩

/-- On text with a tab, _check_for_tabs reports the first tab line. -/
theorem checkForTabs_of_hasTab (t : List Char) (h : containsTab t = true) :
    ∃ col, checkForTabs t = some (tabIssueAt (firstTabLine t) col) := by
  rcases checkForTabsAux_line (splitlines t) 1 (splitlines_any_tab t h) with ⟨col, hc⟩
  refine ⟨col, ?_⟩
  unfold checkForTabs firstTabLine
  rw [hc]
  have : 1 + List.findIdx containsTab (splitlines t)
      = List.findIdx containsTab (splitlines t) + 1 := by omega
  rw [this]

/-- C10: both fix (with no issues) and fix_all rebuild the text by splitting
into lines and joining with a newline, so the trailing newline is dropped —
the output differs from the input while the change list is empty. -/
theorem trailing_newline_dropped_with_empty_changes :
    (fix_all c10Text).1 = "a: 1".data
    ∧ (fix_all c10Text).2 = []
    ∧ fix c10Text [] = Except.ok ⟨"a: 1".data, [], []⟩
    ∧ "a: 1".data ≠ c10Text := by
  exact ⟨rfl, rfl, rfl, by decide⟩

/-- C7: load_yaml_to_models is all-or-nothing, for every behaviour of the
pydantic Group constructor: a non-empty error list comes with no model, an
empty error list comes with a fully typed model — never a partial model
alongside errors. -/
theorem load_all_or_nothing (ctor : GroupCtor) (data : Plain) (lm : List (String × Nat)) :
    ((load_yaml_to_models ctor data lm).2 ≠ [] → (load_yaml_to_models ctor data lm).1 = none)
    ∧ ((load_yaml_to_models ctor data lm).2 = [] →
        ∃ m, (load_yaml_to_models ctor data lm).1 = some m) := by
  cases data with
  | dict entries =>
    by_cases hemp : entries.isEmpty = true
    · constructor
      · intro _
        simp [load_yaml_to_models, hemp]
      · intro h
        simp [load_yaml_to_models, hemp] at h
    · by_cases herr : (loadGroups ctor lm entries).2.isEmpty = true
      · constructor
        · intro h
          simp [load_yaml_to_models, hemp, herr] at h
        · intro _
          refine ⟨(loadGroups ctor lm entries).1, ?_⟩
          simp [load_yaml_to_models, hemp, herr]
      · constructor
        · intro _
          simp [load_yaml_to_models, hemp, herr]
        · intro h
          simp [load_yaml_to_models, hemp, herr] at h
          exact absurd (List.isEmpty_iff.mpr h) herr
  | null => exact ⟨fun _ => rfl, fun h => by simp [load_yaml_to_models] at h⟩
  | bool v => exact ⟨fun _ => rfl, fun h => by simp [load_yaml_to_models] at h⟩
  | int v => exact ⟨fun _ => rfl, fun h => by simp [load_yaml_to_models] at h⟩
  | str v => exact ⟨fun _ => rfl, fun h => by simp [load_yaml_to_models] at h⟩
  | list items => exact ⟨fun _ => rfl, fun h => by simp [load_yaml_to_models] at h⟩

/-- C5: a registry whose core list is [good, throwing, good2] yields good's
issues, one synthetic GXVAL000 issue naming the throwing rule's id and the
exception text, then good2's issues, in that order; the exception never
propagates and the sibling rules always run. -/
theorem run_core_isolates_failures (reg : RuleRegistry) (model : YAMLSchema)
    (lm : List (String × Nat)) (r1 r2 r3 : Rule)
    (l1 l3 : List ValidationIssue) (emsg : String)
    (hreg : reg.core = [r1, r2, r3])
    (h1 : r1.validate model lm = Except.ok l1)
    (h2 : r2.validate model lm = Except.error emsg)
    (h3 : r3.validate model lm = Except.ok l3) :
    run_core_rules reg model lm
      = l1 ++ [⟨Severity.error, "GXVAL000", "Rule " ++ r2.id ++ " failed: " ++ emsg,
          [], none, none⟩] ++ l3 := by
  unfold run_core_rules
  rw [hreg]
  simp only [List.foldl_cons, List.foldl_nil, h1, h2, h3]
  simp [List.append_assoc]

/-- Witness for C5 at a concrete registry, model and line map. -/
theorem run_core_isolates_failures_witness :
    (c5Reg.core = [c5Good1, c5Bad, c5Good2]
      ∧ c5Good1.validate [] [] = Except.ok [create_warning "W1" "w1" [] none none]
      ∧ c5Bad.validate [] [] = Except.error "boom"
      ∧ c5Good2.validate [] [] = Except.ok [create_error "E2" "e2" [] none none])
    ∧ run_core_rules c5Reg [] []
      = [create_warning "W1" "w1" [] none none]
        ++ [⟨Severity.error, "GXVAL000", "Rule " ++ c5Bad.id ++ " failed: " ++ "boom",
            [], none, none⟩]
        ++ [create_error "E2" "e2" [] none none] :=
  ⟨⟨rfl, rfl, rfl, rfl⟩,
   run_core_isolates_failures c5Reg [] [] c5Good1 c5Bad c5Good2 _ _ _ rfl rfl rfl rfl⟩

/-- C8: RequiredFieldsRule — absent group: no issues; fields None: exactly
one error; otherwise exactly one error per missing required field name, in
sorted name order, each with path [group, fields, field] and line resolved at
the group's fields path. -/
theorem required_fields_rule_spec (groupName : String) (requiredFields : List String)
    (model : YAMLSchema) (lm : List (String × Nat))
    (hnd : requiredFields.Nodup) :
    (List.lookup groupName model = none →
      requiredFieldsValidate groupName requiredFields model lm = [])
    ∧ (∀ g, List.lookup groupName model = some g → g.fields = none →
        ∃ iss, requiredFieldsValidate groupName requiredFields model lm = [iss]
          ∧ iss.severity = Severity.error
          ∧ iss.code = SrcCodes.PROFILE_MISSING_REQUIRED_FIELD)
    ∧ (∀ g fl, List.lookup groupName model = some g → g.fields = some fl →
        ((requiredFieldsValidate groupName requiredFields model lm).length
            = (requiredFields.filter (fun f => !((fl.map Prod.fst).contains f))).length
          ∧ ((requiredFieldsValidate groupName requiredFields model lm).map lastSeg).Perm
              (requiredFields.filter (fun f => !((fl.map Prod.fst).contains f)))
          ∧ List.Sorted (fun a b => a ≤ b)
              ((requiredFieldsValidate groupName requiredFields model lm).map lastSeg)
          ∧ ∀ iss ∈ requiredFieldsValidate groupName requiredFields model lm,
              iss.severity = Severity.error
              ∧ iss.code = SrcCodes.PROFILE_MISSING_REQUIRED_FIELD
              ∧ iss.line = get_line_for_path lm [groupName, "fields"]
              ∧ iss.path = [groupName, "fields", lastSeg iss])) := by
  refine ⟨?_, ?_, ?_⟩
  · intro h
    unfold requiredFieldsValidate
    rw [h]
  · intro g hg hf
    unfold requiredFieldsValidate
    simp only [hg, hf]
    exact ⟨_, rfl, rfl, rfl⟩
  · intro g fl hg hf
    have hdd : (requiredFields.filter (fun f => !((fl.map Prod.fst).contains f))).dedup
        = requiredFields.filter (fun f => !((fl.map Prod.fst).contains f)) :=
      List.dedup_eq_self.mpr (hnd.filter _)
    have hval : requiredFieldsValidate groupName requiredFields model lm
        = (List.insertionSort (fun a b => a ≤ b)
            (requiredFields.filter (fun f => !((fl.map Prod.fst).contains f)))).map
          (fun f =>
            create_error SrcCodes.PROFILE_MISSING_REQUIRED_FIELD
              ("Required field \x27" ++ f ++ "\x27 is missing from " ++ groupName ++ ".fields")
              [groupName, "fields", f]
              (get_line_for_path lm [groupName, "fields"])
              (some ("Add \x27" ++ f ++ ":\x27 with prompt containing identifiers and type"))) := by
      unfold requiredFieldsValidate
      simp only [hg, hf, hdd]
    have hmapLast : (requiredFieldsValidate groupName requiredFields model lm).map lastSeg
        = List.insertionSort (fun a b => a ≤ b)
            (requiredFields.filter (fun f => !((fl.map Prod.fst).contains f))) := by
      rw [hval, List.map_map]
      exact (List.map_congr_left (fun f _ => rfl)).trans (List.map_id' _)
    have hperm : (List.insertionSort (fun a b => a ≤ b)
          (requiredFields.filter (fun f => !((fl.map Prod.fst).contains f)))).Perm
        (requiredFields.filter (fun f => !((fl.map Prod.fst).contains f))) :=
      List.perm_insertionSort _ _
    refine ⟨?_, ?_, ?_, ?_⟩
    · rw [hval, List.length_map]
      exact hperm.length_eq
    · rw [hmapLast]
      exact hperm
    · rw [hmapLast]
      exact List.sorted_insertionSort _ _
    · intro iss hmem
      rw [hval] at hmem
      rcases List.mem_map.mp hmem with ⟨f, _, hmk⟩
      subst hmk
      exact ⟨rfl, rfl, rfl, rfl⟩

/-- Witness for C8 at a concrete model, with required fields meters and
charges. -/
theorem required_fields_rule_spec_witness :
    (["meters", "charges"] : List String).Nodup
    ∧ ((List.lookup "statement" c8Model = none →
      requiredFieldsValidate "statement" ["meters", "charges"] c8Model [] = [])
    ∧ (∀ g, List.lookup "statement" c8Model = some g → g.fields = none →
        ∃ iss, requiredFieldsValidate "statement" ["meters", "charges"] c8Model [] = [iss]
          ∧ iss.severity = Severity.error
          ∧ iss.code = SrcCodes.PROFILE_MISSING_REQUIRED_FIELD)
    ∧ (∀ g fl, List.lookup "statement" c8Model = some g → g.fields = some fl →
        ((requiredFieldsValidate "statement" ["meters", "charges"] c8Model []).length
            = (["meters", "charges"].filter (fun f => !((fl.map Prod.fst).contains f))).length
          ∧ ((requiredFieldsValidate "statement" ["meters", "charges"] c8Model []).map lastSeg).Perm
              (["meters", "charges"].filter (fun f => !((fl.map Prod.fst).contains f)))
          ∧ List.Sorted (fun a b => a ≤ b)
              ((requiredFieldsValidate "statement" ["meters", "charges"] c8Model []).map lastSeg)
          ∧ ∀ iss ∈ requiredFieldsValidate "statement" ["meters", "charges"] c8Model [],
              iss.severity = Severity.error
              ∧ iss.code = SrcCodes.PROFILE_MISSING_REQUIRED_FIELD
              ∧ iss.line = get_line_for_path [] ["statement", "fields"]
              ∧ iss.path = ["statement", "fields", lastSeg iss]))) :=
  ⟨by decide, required_fields_rule_spec "statement" ["meters", "charges"] c8Model [] (by decide)⟩

/-- C6: on any text containing a tab, with any loader, constructor, registry
and known (or absent) profile, validation returns exactly one error — the
TAB issue carrying the 1-based number of the first line containing a tab —
and no warnings: no loader or rule diagnostics are produced. -/
theorem validate_tab_short_circuit (load : List Char → LoadOutcome)
    (ctor : GroupCtor) (reg : RuleRegistry) (profileOk : String → Bool)
    (text : List Char) (profile : Option String) (failFast : Bool)
    (htab : containsTab text = true)
    (hprof : ∀ p, profile = some p → p.isEmpty = false → profileOk p = true) :
    ∃ iss, validate_yaml_schema load ctor reg profileOk text profile failFast
        = Except.ok ⟨false, [iss], []⟩
      ∧ iss.code = ErrorCodes.YAML_TAB_ERROR
      ∧ iss.severity = Severity.error
      ∧ iss.line = some (firstTabLine text) := by
  rcases checkForTabs_of_hasTab text htab with ⟨col, hct⟩
  have hguard : (profTruthy profile && !(profileOk (profile.getD ""))) = false := by
    cases profile with
    | none => rfl
    | some p =>
      by_cases hp : p.isEmpty = true
      · simp [profTruthy, hp]
      · have := hprof p rfl (Bool.eq_false_iff.mpr hp)
        simp [profTruthy, this]
  have hpy : parse_yaml load text = ParseOutcome.failed (tabIssueAt (firstTabLine text) col) := by
    unfold parse_yaml
    rw [hct]
  refine ⟨tabIssueAt (firstTabLine text) col, ?_, rfl, rfl, rfl⟩
  unfold validate_yaml_schema
  rw [if_neg (by rw [hguard]; exact Bool.false_ne_true), hpy]

/-- Witness for C6 at a concrete text, trivial loader and constructor, empty
registry and no profile. -/
theorem validate_tab_short_circuit_witness :
    containsTab c6Text = true
    ∧ (∀ p, (none : Option String) = some p → p.isEmpty = false → (fun _ => true) p = true)
    ∧ ∃ iss, validate_yaml_schema (fun _ => LoadOutcome.empty)
          (fun _ => Except.ok ⟨none, none⟩) ⟨[], []⟩ (fun _ => true) c6Text none false
        = Except.ok ⟨false, [iss], []⟩
      ∧ iss.code = ErrorCodes.YAML_TAB_ERROR
      ∧ iss.severity = Severity.error
      ∧ iss.line = some (firstTabLine c6Text) :=
  ⟨by decide, fun p h => absurd h (by simp),
   validate_tab_short_circuit (fun _ => LoadOutcome.empty)
     (fun _ => Except.ok ⟨none, none⟩) ⟨[], []⟩ (fun _ => true) c6Text none false
     (by decide) (fun p h => absurd h (by simp))⟩

end YamlVal
